import Mathlib

/-!
Shallow embedding of `src/mongo/client/connpool.cpp` (connection pool):
`PoolForHost` (per-partition idle stack + bad-connection watermark),
`DBConnectionPool` (partition map, hooks, admin operations) and the
`ScopedDbConnection` destructor protocol.

Machine integers are modelled as `Nat` (timestamps, `uint64_t`) and `Int`
(the signed `_maxPoolSize` whose negative sentinel means unbounded).
Side effects on connections (hook invocations, `delete`) are recorded as an
explicit event trace; external behaviour of a connection (its failed flag,
creation timestamp, liveness) is carried as immutable fields of the
connection value, and the `isMaster` probe of `flush` is an oracle argument.
-/

/-- Modelled from the spec: the connection capability required by the core
(`isFailed()`, `getSockCreationMicroSec()`, `getSoTimeout()`,
`isStillConnected()`, `type()`); the class itself lives outside this
fragment.  `nid` distinguishes connection objects. -/
structure DBClientBase where
  nid : Nat
  isFailed : Bool
  sockCreationMicroSec : Nat
  soTimeout : Nat
  stillConnected : Bool
  connType : Nat
deriving DecidableEq

/-- Modelled from the spec: the sentinel "unknown" creation timestamp
(`DBClientBase::INVALID_SOCK_CREATION_TIME`, the maximal `uint64_t`). -/
def INVALID_SOCK_CREATION_TIME : Nat := 18446744073709551615

/-- Observable side effects of pool operations: hook invocations and the
freeing (`delete`) of a connection. -/
inductive PoolEvent where
  | onCreate (c : DBClientBase)
  | onHandedOut (c : DBClientBase)
  | onRelease (c : DBClientBase)
  | onDestroy (c : DBClientBase)
  | deleteConn (c : DBClientBase)
deriving DecidableEq

/-- `PoolForHost::StoredConnection`: a pooled connection plus the time it was
stored (`when`), which the source records but never reads. -/
structure StoredConnection where
  conn : DBClientBase
  when : Nat
deriving DecidableEq

/-- `StoredConnection::ok`: pokes the connection; the source ignores `now`
and just calls `isStillConnected()`. -/
def StoredConnection.ok (sc : StoredConnection) (_now : Nat) : Bool :=
  sc.conn.stillConnected

/-- Per-partition state of `PoolForHost`.  `_pool` is the idle stack with the
head as `top()`.  Default field values are the construction state (modelled
from the spec: watermark starts at the minimum possible value, no
connections created, unlimited capacity sentinel `-1`). -/
structure PoolForHost where
  _pool : List StoredConnection := []
  _created : Nat := 0
  _minValidCreationTimeMicroSec : Nat := 0
  _maxPoolSize : Int := -1
  _hostName : String := ""
  _type : Nat := 0
deriving DecidableEq

def PoolForHost.numAvailable (p : PoolForHost) : Nat := p._pool.length

def PoolForHost.numCreated (p : PoolForHost) : Nat := p._created

/-- `PoolForHost::clear`: pops and `delete`s every idle connection (no
destroy hook). -/
def PoolForHost.clear (p : PoolForHost) : PoolForHost × List PoolEvent :=
  ({ p with _pool := [] }, p._pool.map fun sc => PoolEvent.deleteConn sc.conn)

/-- `PoolForHost::reportBadConnectionAt`: raise the watermark and clear the
idle stack when the reported time is valid and strictly newer than the
current watermark; otherwise do nothing. -/
def PoolForHost.reportBadConnectionAt (p : PoolForHost) (microSec : Nat) :
    PoolForHost × List PoolEvent :=
  if microSec ≠ INVALID_SOCK_CREATION_TIME ∧
      p._minValidCreationTimeMicroSec < microSec then
    PoolForHost.clear { p with _minValidCreationTimeMicroSec := microSec }
  else
    (p, [])

/-- `PoolForHost::isBadSocketCreationTime`. -/
def PoolForHost.isBadSocketCreationTime (p : PoolForHost) (microSec : Nat) : Bool :=
  microSec ≠ INVALID_SOCK_CREATION_TIME ∧
    microSec ≤ p._minValidCreationTimeMicroSec

/-- `PoolForHost::done`: report a failed connection's creation time as a
watermark candidate, then either destroy the connection (failed, superseded
by the watermark, or over capacity — destroy hook then `delete`) or push it
onto the idle stack. -/
def PoolForHost.done (p : PoolForHost) (c : DBClientBase) (now : Nat) :
    PoolForHost × List PoolEvent :=
  let isFailed := c.isFailed
  let step1 : PoolForHost × List PoolEvent :=
    if isFailed then p.reportBadConnectionAt c.sockCreationMicroSec else (p, [])
  let p1 := step1.1
  if isFailed = true ∨
      c.sockCreationMicroSec < p1._minValidCreationTimeMicroSec ∨
      (0 ≤ p1._maxPoolSize ∧ p1._maxPoolSize ≤ (p1._pool.length : Int)) then
    (p1, step1.2 ++ [PoolEvent.onDestroy c, PoolEvent.deleteConn c])
  else
    ({ p1 with _pool := ⟨c, now⟩ :: p1._pool }, step1.2)

/-- Result of `PoolForHost::get`: a pooled connection, `NULL` on empty, or
the `verify(getSoTimeout() == socketTimeout)` contract failure. -/
inductive GetResult where
  | got (c : DBClientBase)
  | empty
  | verifyFail (c : DBClientBase)
deriving DecidableEq

/-- Loop of `PoolForHost::get`: pop entries, destroying (hook + `delete`)
those that fail the liveness poke, until one survives or the stack is
exhausted. -/
def PoolForHost.getLoop (stack : List StoredConnection) (now socketTimeout : Nat) :
    List StoredConnection × List PoolEvent × GetResult :=
  match stack with
  | [] => ([], [], GetResult.empty)
  | sc :: rest =>
    if sc.ok now then
      if sc.conn.soTimeout = socketTimeout then
        (rest, [], GetResult.got sc.conn)
      else
        (rest, [], GetResult.verifyFail sc.conn)
    else
      let r := PoolForHost.getLoop rest now socketTimeout
      (r.1, PoolEvent.onDestroy sc.conn :: PoolEvent.deleteConn sc.conn :: r.2.1,
        r.2.2)

/-- `PoolForHost::get`. -/
def PoolForHost.get (p : PoolForHost) (now socketTimeout : Nat) :
    PoolForHost × List PoolEvent × GetResult :=
  let r := PoolForHost.getLoop p._pool now socketTimeout
  ({ p with _pool := r.1 }, r.2.1, r.2.2)

/-- `PoolForHost::flush`: drain the stack, `isMaster`-probe each connection
(`probe` is the oracle for "the probe did not throw"), `delete` the dead
ones without the destroy hook, push the survivors back (which reverses
their order). -/
def PoolForHost.flush (p : PoolForHost) (probe : DBClientBase → Bool) :
    PoolForHost × List PoolEvent :=
  ({ p with _pool := (p._pool.filter fun sc => probe sc.conn).reverse },
    (p._pool.filter fun sc => ¬ probe sc.conn).map fun sc =>
      PoolEvent.deleteConn sc.conn)

/-- `PoolForHost::getStaleConnections`: remove the entries failing the
liveness poke and hand them to the caller; push the survivors back (which
reverses their order). -/
def PoolForHost.getStaleConnections (p : PoolForHost) (now : Nat) :
    PoolForHost × List DBClientBase :=
  ({ p with _pool := (p._pool.filter fun sc => sc.ok now).reverse },
    (p._pool.filter fun sc => ¬ sc.ok now).map fun sc => sc.conn)

/-- `PoolForHost::createdOne`: record the type tag on the first creation and
bump the created counter. -/
def PoolForHost.createdOne (p : PoolForHost) (base : DBClientBase) : PoolForHost :=
  let p' := if p._created = 0 then { p with _type := base.connType } else p
  { p' with _created := p'._created + 1 }

/-- `PoolForHost::initializeHostName`: first write wins. -/
def PoolForHost.initializeHostName (p : PoolForHost) (hostName : String) :
    PoolForHost :=
  if p._hostName = "" then { p with _hostName := hostName } else p

/-- `PoolForHost::setMaxPoolSize`. -/
def PoolForHost.setMaxPoolSize (p : PoolForHost) (m : Int) : PoolForHost :=
  { p with _maxPoolSize := m }

/-- `DBConnectionPool::serverNameCompare::operator()` on character lists: a
strict ordering that treats the end of the name (`'\0'` or the first `'/'`)
as the terminator, so a replica-set suffix is ignored. -/
def endOfName : List Char → Bool
  | [] => true
  | c :: _ => c = '/'

def serverNameLtChars : List Char → List Char → Bool
  | [], b => !endOfName b
  | a :: as', b =>
    if a = '/' then !endOfName b
    else
      match b with
      | [] => false
      | b' :: bs' =>
        if b' = '/' then false
        else if a < b' then true
        else if b' < a then false
        else serverNameLtChars as' bs'

/-- `DBConnectionPool::serverNameCompare::operator()` on strings. -/
def serverNameCompare (a b : String) : Bool :=
  serverNameLtChars a.toList b.toList

/-- The partition key `DBConnectionPool::PoolKey` (`ident`, `timeout`); the
`double` timeout is modelled as `Nat`, compared only for equality and
order. -/
structure PoolKey where
  ident : String
  timeout : Nat
deriving DecidableEq

/-- `DBConnectionPool::poolKeyCompare::operator()`: identity under the
server-name ordering first, then timeout. -/
def poolKeyCompare (a b : PoolKey) : Bool :=
  if serverNameCompare a.ident b.ident then true
  else if serverNameCompare b.ident a.ident then false
  else a.timeout < b.timeout

/-- Key equivalence induced by `poolKeyCompare` — what `std::map` uses to
decide that two keys denote the same entry. -/
def poolKeyEquiv (a b : PoolKey) : Bool :=
  !poolKeyCompare a b && !poolKeyCompare b a

/-- The partition map `PoolMap`, as an association list in insertion order
with lookups up to `poolKeyEquiv`. -/
abbrev PoolMap := List (PoolKey × PoolForHost)

/-- Lookup in the partition map (no insertion). -/
def PoolMap.find : PoolMap → PoolKey → Option PoolForHost
  | [], _ => none
  | (k', p) :: rest, k =>
    if poolKeyEquiv k' k then some p else PoolMap.find rest k

/-- `std::map::operator[]`: the entry for `k`, default-constructing and
inserting one when absent.  Returns the entry and the possibly grown map. -/
def PoolMap.index (m : PoolMap) (k : PoolKey) : PoolForHost × PoolMap :=
  match PoolMap.find m k with
  | some p => (p, m)
  | none => ({}, m ++ [(k, ({} : PoolForHost))])

/-- Write back a mutated entry (the C++ code mutates through the reference
returned by `operator[]`). -/
def PoolMap.store : PoolMap → PoolKey → PoolForHost → PoolMap
  | [], _, _ => []
  | (k', p') :: rest, k, p =>
    if poolKeyEquiv k' k then (k, p) :: rest
    else (k', p') :: PoolMap.store rest k p

/-- Process-wide `DBConnectionPool` state: the partition map and the global
capacity.  Hook behaviour is passed separately as a `HookSpec`. -/
structure DBConnectionPool where
  _pools : PoolMap := []
  _maxPoolSize : Int := -1

/-- Whether the registered create / handed-out hooks throw on a given
connection (the only hook behaviour the control flow depends on). -/
structure HookSpec where
  onCreateThrows : DBClientBase → Bool
  onHandedOutThrows : DBClientBase → Bool

/-- The hook behaviour of an empty hook list: nothing ever throws. -/
def noThrowHooks : HookSpec := ⟨fun _ => false, fun _ => false⟩

/-- `DBConnectionPool::_get`: index the partition (default-constructing it),
propagate the global capacity, set the host name, and delegate to
`PoolForHost::get`. -/
def DBConnectionPool._get (st : DBConnectionPool) (ident : String)
    (socketTimeout now : Nat) : DBConnectionPool × List PoolEvent × GetResult :=
  let k : PoolKey := ⟨ident, socketTimeout⟩
  let e := PoolMap.index st._pools k
  let p := (e.1.setMaxPoolSize st._maxPoolSize).initializeHostName ident
  let r := p.get now socketTimeout
  ({ st with _pools := PoolMap.store e.2 k r.1 }, r.2.1, r.2.2)

/-- `DBConnectionPool::_finishCreate`: register the creation in the
partition (capacity, host name, created counter), then fire the create and
handed-out hooks; if either throws, `delete` the fresh connection and
re-raise. -/
def DBConnectionPool._finishCreate (st : DBConnectionPool) (hooks : HookSpec)
    (host : String) (socketTimeout : Nat) (conn : DBClientBase) :
    DBConnectionPool × List PoolEvent × Except Unit DBClientBase :=
  let k : PoolKey := ⟨host, socketTimeout⟩
  let e := PoolMap.index st._pools k
  let p := (((e.1.setMaxPoolSize st._maxPoolSize).initializeHostName host)).createdOne conn
  let st1 : DBConnectionPool := { st with _pools := PoolMap.store e.2 k p }
  if hooks.onCreateThrows conn then
    (st1, [PoolEvent.deleteConn conn], Except.error ())
  else if hooks.onHandedOutThrows conn then
    (st1, [PoolEvent.onCreate conn, PoolEvent.deleteConn conn], Except.error ())
  else
    (st1, [PoolEvent.onCreate conn, PoolEvent.onHandedOut conn], Except.ok conn)

/-- Outcome of `DBConnectionPool::get`: a connection, a hook exception, a
connect failure (`uassert` 13328/11002), or the timeout contract failure
inside `PoolForHost::get`. -/
inductive AcquireResult where
  | ok (c : DBClientBase)
  | hookError
  | connectError
  | verifyAbort
deriving DecidableEq

/-- `DBConnectionPool::get(host, socketTimeout)`: try the pool; on a hit
fire the handed-out hook (deleting the connection and re-raising if it
throws); on a miss dial (`dial = none` models a failed connect) and finish
through `_finishCreate`. -/
def DBConnectionPool.get (st : DBConnectionPool) (hooks : HookSpec)
    (host : String) (socketTimeout now : Nat) (dial : Option DBClientBase) :
    DBConnectionPool × List PoolEvent × AcquireResult :=
  let g := st._get host socketTimeout now
  let st1 := g.1
  match g.2.2 with
  | GetResult.got c =>
    if hooks.onHandedOutThrows c then
      (st1, g.2.1 ++ [PoolEvent.deleteConn c], AcquireResult.hookError)
    else
      (st1, g.2.1 ++ [PoolEvent.onHandedOut c], AcquireResult.ok c)
  | GetResult.verifyFail _ => (st1, g.2.1, AcquireResult.verifyAbort)
  | GetResult.empty =>
    match dial with
    | none => (st1, g.2.1, AcquireResult.connectError)
    | some c =>
      let f := st1._finishCreate hooks host socketTimeout c
      (f.1, g.2.1 ++ f.2.1,
        match f.2.2 with
        | Except.ok c' => AcquireResult.ok c'
        | Except.error _ => AcquireResult.hookError)

/-- `DBConnectionPool::release`: fire the release hooks, then delegate to
the owning partition's `done` (the key uses the connection's own
`getSoTimeout()`). -/
def DBConnectionPool.release (st : DBConnectionPool) (host : String)
    (c : DBClientBase) (now : Nat) : DBConnectionPool × List PoolEvent :=
  let k : PoolKey := ⟨host, c.soTimeout⟩
  let e := PoolMap.index st._pools k
  let r := e.1.done c now
  ({ st with _pools := PoolMap.store e.2 k r.1 }, PoolEvent.onRelease c :: r.2)

/-- `DBConnectionPool::clear`: clear every partition, erasing none. -/
def DBConnectionPool.clear (st : DBConnectionPool) :
    DBConnectionPool × List PoolEvent :=
  ({ st with _pools := st._pools.map fun e => (e.1, (e.2.clear).1) },
    st._pools.flatMap fun e => (e.2.clear).2)

/-- Loop of `DBConnectionPool::removeHost`: clear the partitions whose
identity is server-name-equivalent to `host`. -/
def removeHostLoop : PoolMap → String → PoolMap × List PoolEvent
  | [], _ => ([], [])
  | (k, p) :: rest, host =>
    let r := removeHostLoop rest host
    if !serverNameCompare host k.ident && !serverNameCompare k.ident host then
      ((k, (p.clear).1) :: r.1, (p.clear).2 ++ r.2)
    else
      ((k, p) :: r.1, r.2)

/-- `DBConnectionPool::removeHost`. -/
def DBConnectionPool.removeHost (st : DBConnectionPool) (host : String) :
    DBConnectionPool × List PoolEvent :=
  let r := removeHostLoop st._pools host
  ({ st with _pools := r.1 }, r.2)

/-- `DBConnectionPool::isConnectionGood`: `NULL` and failed connections are
rejected before the map is touched; otherwise the partition is indexed
(default-constructing it) and its watermark consulted. -/
def DBConnectionPool.isConnectionGood (st : DBConnectionPool)
    (hostName : String) (conn : Option DBClientBase) : Bool × DBConnectionPool :=
  match conn with
  | none => (false, st)
  | some c =>
    if c.isFailed then (false, st)
    else
      let e := PoolMap.index st._pools ⟨hostName, c.soTimeout⟩
      let st1 : DBConnectionPool := { st with _pools := e.2 }
      if e.1.isBadSocketCreationTime c.sockCreationMicroSec then (false, st1)
      else (true, st1)

/-- `ScopedDbConnection::~ScopedDbConnection`: with a held connection,
failed + sentinel creation time ⇒ `kill()`; failed + known creation time ⇒
`done()` (which is `_pool->release`, modelled from the spec since the
header is outside this fragment); healthy ⇒ `kill()`.  `kill()` is
modelled from the spec: destroy the connection directly, bypassing the
pool. -/
def ScopedDbConnection.destructor (st : DBConnectionPool) (host : String)
    (conn : Option DBClientBase) (now : Nat) : DBConnectionPool × List PoolEvent :=
  match conn with
  | none => (st, [])
  | some c =>
    if c.isFailed then
      if c.sockCreationMicroSec = INVALID_SOCK_CREATION_TIME then
        (st, [PoolEvent.onDestroy c, PoolEvent.deleteConn c])
      else
        st.release host c now
    else
      (st, [PoolEvent.onDestroy c, PoolEvent.deleteConn c])

/-! ### Helper lemmas about the server-name ordering and the partition map -/

/-- The identity of a key as the map sees it: the characters up to (and not
including) the first `'/'`. -/
def upToSlash (l : List Char) : List Char := l.takeWhile fun c => c != '/'

theorem serverNameLtChars_nil_left (b : List Char) :
    serverNameLtChars [] b = !endOfName b := rfl

theorem serverNameLtChars_cons_nil (a : Char) (as : List Char) :
    serverNameLtChars (a :: as) [] = false := by
  show (if a = '/' then !endOfName [] else false) = false
  split <;> rfl

theorem serverNameLtChars_cons_cons (a b : Char) (as bs : List Char) :
    serverNameLtChars (a :: as) (b :: bs) =
      if a = '/' then !endOfName (b :: bs)
      else if b = '/' then false
      else if a < b then true
      else if b < a then false
      else serverNameLtChars as bs := rfl

theorem upToSlash_nil : upToSlash [] = [] := rfl

theorem upToSlash_cons (c : Char) (l : List Char) :
    upToSlash (c :: l) = if c = '/' then [] else c :: upToSlash l := by
  unfold upToSlash
  rw [List.takeWhile_cons]
  by_cases hc : c = '/' <;> simp [hc]

theorem endOfName_iff (b : List Char) : endOfName b = true ↔ upToSlash b = [] := by
  cases b with
  | nil => simp [endOfName, upToSlash_nil]
  | cons c bs =>
    by_cases hc : c = '/' <;> simp [endOfName, upToSlash_cons, hc]

theorem serverNameLtChars_nil_right : ∀ b : List Char, serverNameLtChars b [] = false
  | [] => rfl
  | c :: bs => serverNameLtChars_cons_nil c bs

theorem serverNameEquivChars_iff (a : List Char) : ∀ b : List Char,
    (serverNameLtChars a b = false ∧ serverNameLtChars b a = false) ↔
      upToSlash a = upToSlash b := by
  induction a with
  | nil =>
    intro b
    rw [serverNameLtChars_nil_left, serverNameLtChars_nil_right, upToSlash_nil]
    cases hb : endOfName b
    · have hne : upToSlash b ≠ [] := by
        intro hcontra
        rw [(endOfName_iff b).2 hcontra] at hb
        cases hb
      simp [hb, hne, Ne.symm hne]
    · have heq := (endOfName_iff b).1 hb
      simp [hb, heq]
  | cons x as ih =>
    intro b
    cases b with
    | nil =>
      rw [serverNameLtChars_cons_nil, serverNameLtChars_nil_left, upToSlash_nil]
      cases hb : endOfName (x :: as)
      · have hne : upToSlash (x :: as) ≠ [] := by
          intro hcontra
          rw [(endOfName_iff _).2 hcontra] at hb
          cases hb
        simp [hb, hne]
      · have heq := (endOfName_iff _).1 hb
        simp [hb, heq]
    | cons y bs =>
      rw [serverNameLtChars_cons_cons, serverNameLtChars_cons_cons]
      by_cases hx : x = '/'
      · by_cases hy : y = '/'
        · simp [hx, hy, endOfName, upToSlash_cons]
        · simp [hx, hy, endOfName, upToSlash_cons]
      · by_cases hy : y = '/'
        · simp [hx, hy, endOfName, upToSlash_cons]
        · rcases lt_trichotomy x y with h | h | h
          · have hxy : ¬ (x = y) := ne_of_lt h
            simp [hx, hy, h, upToSlash_cons, hxy]
          · subst h
            simp [hx, hy, lt_irrefl, upToSlash_cons, ih bs]
          · have hxy : ¬ (x = y) := (ne_of_lt h).symm
            simp [hx, hy, h, asymm h, upToSlash_cons, hxy]

theorem serverNameLtChars_self (a : List Char) : serverNameLtChars a a = false :=
  (((serverNameEquivChars_iff a a).2 rfl).1)

/-- The projection under which `poolKeyEquiv` is just equality. -/
def keyProj (k : PoolKey) : List Char × Nat := (upToSlash k.ident.toList, k.timeout)

theorem serverNameCompare_iff (a b : String) :
    (serverNameCompare a b = false ∧ serverNameCompare b a = false) ↔
      upToSlash a.toList = upToSlash b.toList :=
  serverNameEquivChars_iff a.toList b.toList

theorem poolKeyEquiv_eq (a b : PoolKey) :
    poolKeyEquiv a b = true ↔
      (serverNameCompare a.ident b.ident = false ∧
        serverNameCompare b.ident a.ident = false ∧ a.timeout = b.timeout) := by
  unfold poolKeyEquiv poolKeyCompare
  cases hab : serverNameCompare a.ident b.ident <;>
    cases hba : serverNameCompare b.ident a.ident <;> simp [hab, hba]
  omega

theorem poolKeyEquiv_iff (a b : PoolKey) :
    poolKeyEquiv a b = true ↔ keyProj a = keyProj b := by
  rw [poolKeyEquiv_eq]
  unfold keyProj
  simp only [Prod.mk.injEq]
  constructor
  · rintro ⟨h1, h2, h3⟩
    exact ⟨(serverNameCompare_iff _ _).1 ⟨h1, h2⟩, h3⟩
  · rintro ⟨h1, h2⟩
    have h := (serverNameCompare_iff a.ident b.ident).2 h1
    exact ⟨h.1, h.2, h2⟩

theorem poolKeyEquiv_refl (k : PoolKey) : poolKeyEquiv k k = true :=
  (poolKeyEquiv_iff k k).2 rfl

/-- The watermark the pool would consult for a key (`0`, the construction
value, when the partition does not exist yet). -/
def PoolMap.watermarkAt (m : PoolMap) (k : PoolKey) : Nat :=
  match m.find k with
  | some p => p._minValidCreationTimeMicroSec
  | none => 0

/-- The created counter of a key's partition (`0` when absent). -/
def PoolMap.createdAt (m : PoolMap) (k : PoolKey) : Nat :=
  match m.find k with
  | some p => p._created
  | none => 0

/-- The idle count of a key's partition (`0` when absent). -/
def PoolMap.availableAt (m : PoolMap) (k : PoolKey) : Nat :=
  match m.find k with
  | some p => p._pool.length
  | none => 0

theorem PoolMap.index_fst (m : PoolMap) (k : PoolKey) :
    (PoolMap.index m k).1 = (PoolMap.find m k).getD {} := by
  unfold PoolMap.index
  cases PoolMap.find m k <;> rfl

theorem PoolMap.find_append_self (m : PoolMap) (k : PoolKey) (d : PoolForHost)
    (h : PoolMap.find m k = none) :
    PoolMap.find (m ++ [(k, d)]) k = some d := by
  induction m with
  | nil => simp [PoolMap.find, poolKeyEquiv_refl]
  | cons e rest ih =>
    rw [List.cons_append]
    unfold PoolMap.find at h ⊢
    by_cases he : poolKeyEquiv e.1 k = true
    · rw [he] at h
      simp at h
    · simp only [Bool.not_eq_true] at he
      rw [he] at h ⊢
      rw [if_neg Bool.false_ne_true] at h ⊢
      exact ih h

theorem PoolMap.find_index_snd (m : PoolMap) (k : PoolKey) :
    PoolMap.find (PoolMap.index m k).2 k = some (PoolMap.index m k).1 := by
  unfold PoolMap.index
  cases h : PoolMap.find m k with
  | some p => simpa using h
  | none => simpa using PoolMap.find_append_self m k {} h

theorem PoolMap.find_store_found (m : PoolMap) (k : PoolKey) (p q : PoolForHost)
    (h : PoolMap.find m k = some q) :
    PoolMap.find (PoolMap.store m k p) k = some p := by
  induction m with
  | nil => simp [PoolMap.find] at h
  | cons e rest ih =>
    unfold PoolMap.find at h
    unfold PoolMap.store
    by_cases he : poolKeyEquiv e.1 k = true
    · rw [if_pos he]
      simp [PoolMap.find, poolKeyEquiv_refl]
    · simp only [Bool.not_eq_true] at he
      rw [he] at h
      rw [if_neg Bool.false_ne_true] at h
      rw [if_neg (by rw [he]; exact Bool.false_ne_true)]
      unfold PoolMap.find
      rw [he, if_neg Bool.false_ne_true]
      exact ih h

theorem PoolMap.index_watermark (m : PoolMap) (k : PoolKey) :
    (PoolMap.index m k).1._minValidCreationTimeMicroSec = PoolMap.watermarkAt m k := by
  rw [PoolMap.index_fst]
  unfold PoolMap.watermarkAt
  cases PoolMap.find m k <;> rfl

theorem isBadSocketCreationTime_iff (p : PoolForHost) (t : Nat) :
    p.isBadSocketCreationTime t = true ↔
      (t ≠ INVALID_SOCK_CREATION_TIME ∧ t ≤ p._minValidCreationTimeMicroSec) := by
  unfold PoolForHost.isBadSocketCreationTime
  exact decide_eq_true_iff

theorem reportBad_watermark (p : PoolForHost) (t : Nat) :
    (p.reportBadConnectionAt t).1._minValidCreationTimeMicroSec =
      if t ≠ INVALID_SOCK_CREATION_TIME ∧ p._minValidCreationTimeMicroSec < t then t
      else p._minValidCreationTimeMicroSec := by
  unfold PoolForHost.reportBadConnectionAt PoolForHost.clear
  split <;> rfl

theorem done_fst_failed (p : PoolForHost) (c : DBClientBase) (now : Nat)
    (hf : c.isFailed = true) :
    (p.done c now).1 = (p.reportBadConnectionAt c.sockCreationMicroSec).1 := by
  unfold PoolForHost.done
  simp [hf]

theorem release_watermark (st : DBConnectionPool) (host : String)
    (c : DBClientBase) (now : Nat) :
    PoolMap.watermarkAt (st.release host c now).1._pools ⟨host, c.soTimeout⟩ =
      ((PoolMap.index st._pools ⟨host, c.soTimeout⟩).1.done c now).1._minValidCreationTimeMicroSec := by
  unfold DBConnectionPool.release PoolMap.watermarkAt
  rw [PoolMap.find_store_found _ _ _ _ (PoolMap.find_index_snd st._pools ⟨host, c.soTimeout⟩)]

/-- C3: `reportBadConnectionAt(t)` with a non-sentinel `t` strictly above the
current watermark sets the watermark to `t`, empties the idle list and
destroys every former idle entry; with a sentinel `t` or `t` at or below the
watermark it is a no-op on both the watermark and the idle list. -/
theorem C3_reportBadConnectionAt_semantics (p : PoolForHost) (t : Nat) :
    PoolForHost.reportBadConnectionAt p t =
      if t ≠ INVALID_SOCK_CREATION_TIME ∧ p._minValidCreationTimeMicroSec < t then
        ({ p with _minValidCreationTimeMicroSec := t, _pool := [] },
          p._pool.map fun sc => PoolEvent.deleteConn sc.conn)
      else (p, []) := by
  unfold PoolForHost.reportBadConnectionAt PoolForHost.clear
  split <;> rfl

/-- C9: `isConnectionGood` returns `false` exactly when the connection
pointer is absent, or the connection reports failed, or its creation
timestamp is non-sentinel and at or below the partition's current
watermark; otherwise it returns `true`. -/
theorem C9_isConnectionGood_iff (st : DBConnectionPool) (host : String)
    (conn : Option DBClientBase) :
    (st.isConnectionGood host conn).1 = false ↔
      conn = none ∨ ∃ c, conn = some c ∧
        (c.isFailed = true ∨
          (c.sockCreationMicroSec ≠ INVALID_SOCK_CREATION_TIME ∧
            c.sockCreationMicroSec ≤
              PoolMap.watermarkAt st._pools ⟨host, c.soTimeout⟩)) := by
  cases conn with
  | none => simp [DBConnectionPool.isConnectionGood]
  | some c =>
    by_cases hf : c.isFailed = true
    · simp [DBConnectionPool.isConnectionGood, hf]
    · simp only [Bool.not_eq_true] at hf
      have hw := PoolMap.index_watermark st._pools ⟨host, c.soTimeout⟩
      by_cases hbad : (PoolMap.index st._pools ⟨host, c.soTimeout⟩).1.isBadSocketCreationTime
          c.sockCreationMicroSec = true
      · have hbad' := (isBadSocketCreationTime_iff _ _).1 hbad
        rw [hw] at hbad'
        simp [DBConnectionPool.isConnectionGood, hf, hbad, hbad'.1, hbad'.2]
      · have hbad' : ¬ (c.sockCreationMicroSec ≠ INVALID_SOCK_CREATION_TIME ∧
            c.sockCreationMicroSec ≤ PoolMap.watermarkAt st._pools ⟨host, c.soTimeout⟩) := by
          intro hcontra
          rw [← hw] at hcontra
          exact hbad ((isBadSocketCreationTime_iff _ _).2 hcontra)
        simp only [Bool.not_eq_true] at hbad
        simp [DBConnectionPool.isConnectionGood, hf, hbad, hbad']

/-- C2: automatic finalization of a scoped connection that the caller never
finalized: a failed connection with the sentinel creation timestamp is
killed (destroyed directly, pool untouched); a failed connection with a
known creation timestamp goes through the pool's release/`done` path, which
propagates the bad-connection watermark of its partition; a healthy
connection is killed and never returned to the pool. -/
theorem C2_scoped_destructor (st : DBConnectionPool) (host : String)
    (c : DBClientBase) (now : Nat) :
    (c.isFailed = true → c.sockCreationMicroSec = INVALID_SOCK_CREATION_TIME →
      ScopedDbConnection.destructor st host (some c) now =
        (st, [PoolEvent.onDestroy c, PoolEvent.deleteConn c])) ∧
    (c.isFailed = true → c.sockCreationMicroSec ≠ INVALID_SOCK_CREATION_TIME →
      ScopedDbConnection.destructor st host (some c) now = st.release host c now ∧
      PoolMap.watermarkAt (ScopedDbConnection.destructor st host (some c) now).1._pools
          ⟨host, c.soTimeout⟩ =
        (if PoolMap.watermarkAt st._pools ⟨host, c.soTimeout⟩ < c.sockCreationMicroSec
         then c.sockCreationMicroSec
         else PoolMap.watermarkAt st._pools ⟨host, c.soTimeout⟩)) ∧
    (c.isFailed = false →
      ScopedDbConnection.destructor st host (some c) now =
        (st, [PoolEvent.onDestroy c, PoolEvent.deleteConn c])) := by
  refine ⟨fun hf hs => ?_, fun hf hs => ⟨?_, ?_⟩, fun hf => ?_⟩
  · simp [ScopedDbConnection.destructor, hf, hs]
  · simp [ScopedDbConnection.destructor, hf, hs]
  · have hrel : ScopedDbConnection.destructor st host (some c) now =
        st.release host c now := by
      simp [ScopedDbConnection.destructor, hf, hs]
    rw [hrel, release_watermark, done_fst_failed _ _ _ hf, reportBad_watermark,
      PoolMap.index_watermark]
    simp [hs]
  · simp [ScopedDbConnection.destructor, hf]

/-- Witness for C2 at concrete inputs: a failed connection with sentinel
creation time is killed, and a healthy one is killed. -/
theorem C2_scoped_destructor_witness :
    ScopedDbConnection.destructor {} "h"
        (some ⟨1, true, INVALID_SOCK_CREATION_TIME, 0, true, 0⟩) 0 =
      ({}, [PoolEvent.onDestroy ⟨1, true, INVALID_SOCK_CREATION_TIME, 0, true, 0⟩,
        PoolEvent.deleteConn ⟨1, true, INVALID_SOCK_CREATION_TIME, 0, true, 0⟩]) ∧
    ScopedDbConnection.destructor {} "h" (some ⟨2, false, 5, 0, true, 0⟩) 0 =
      ({}, [PoolEvent.onDestroy ⟨2, false, 5, 0, true, 0⟩,
        PoolEvent.deleteConn ⟨2, false, 5, 0, true, 0⟩]) ∧
    (ScopedDbConnection.destructor {} "h" (some ⟨3, true, 5, 0, true, 0⟩) 0 =
      DBConnectionPool.release {} "h" ⟨3, true, 5, 0, true, 0⟩ 0) :=
  ⟨(C2_scoped_destructor {} "h" ⟨1, true, INVALID_SOCK_CREATION_TIME, 0, true, 0⟩ 0).1
      rfl rfl,
    (C2_scoped_destructor {} "h" ⟨2, false, 5, 0, true, 0⟩ 0).2.2 rfl,
    ((C2_scoped_destructor {} "h" ⟨3, true, 5, 0, true, 0⟩ 0).2.1 rfl
      (by decide)).1⟩

/-- Closed form of `PoolForHost::done`: the disposition is decided by the
failed flag, then the watermark, then the capacity bound. -/
theorem done_eq (p : PoolForHost) (c : DBClientBase) (now : Nat) :
    p.done c now =
      if c.isFailed = true then
        ((p.reportBadConnectionAt c.sockCreationMicroSec).1,
          (p.reportBadConnectionAt c.sockCreationMicroSec).2 ++
            [PoolEvent.onDestroy c, PoolEvent.deleteConn c])
      else if c.sockCreationMicroSec < p._minValidCreationTimeMicroSec ∨
          (0 ≤ p._maxPoolSize ∧ p._maxPoolSize ≤ (p._pool.length : Int)) then
        (p, [PoolEvent.onDestroy c, PoolEvent.deleteConn c])
      else
        ({ p with _pool := ⟨c, now⟩ :: p._pool }, []) := by
  unfold PoolForHost.done
  by_cases hf : c.isFailed = true
  · simp [hf]
  · simp only [Bool.not_eq_true] at hf
    by_cases hrest : c.sockCreationMicroSec < p._minValidCreationTimeMicroSec ∨
        (0 ≤ p._maxPoolSize ∧ p._maxPoolSize ≤ (p._pool.length : Int))
    · simp [hf, hrest]
    · simp [hf, hrest]

theorem reportBad_no_onDestroy (p : PoolForHost) (t : Nat) (c : DBClientBase) :
    PoolEvent.onDestroy c ∉ (p.reportBadConnectionAt t).2 := by
  unfold PoolForHost.reportBadConnectionAt PoolForHost.clear
  split
  · simp
  · simp

/-- C4: disposition of a returned connection, tested in order: failed ⇒
record the watermark candidate and destroy; stale (created before the
watermark) ⇒ destroy; bounded pool already full ⇒ destroy without evicting
any idle entry; otherwise push onto the idle list.  In every destroy branch
the destroy hook fires exactly once, immediately before the `delete`. -/
theorem C4_done_disposition (p : PoolForHost) (c : DBClientBase) (now : Nat) :
    (c.isFailed = true →
      (p.done c now).1 = (p.reportBadConnectionAt c.sockCreationMicroSec).1 ∧
      (p.done c now).2 =
        (p.reportBadConnectionAt c.sockCreationMicroSec).2 ++
          [PoolEvent.onDestroy c, PoolEvent.deleteConn c] ∧
      PoolEvent.onDestroy c ∉ (p.reportBadConnectionAt c.sockCreationMicroSec).2) ∧
    (c.isFailed = false →
      c.sockCreationMicroSec < p._minValidCreationTimeMicroSec →
      p.done c now = (p, [PoolEvent.onDestroy c, PoolEvent.deleteConn c])) ∧
    (c.isFailed = false →
      ¬ c.sockCreationMicroSec < p._minValidCreationTimeMicroSec →
      0 ≤ p._maxPoolSize → p._maxPoolSize ≤ (p._pool.length : Int) →
      p.done c now = (p, [PoolEvent.onDestroy c, PoolEvent.deleteConn c])) ∧
    (c.isFailed = false →
      ¬ c.sockCreationMicroSec < p._minValidCreationTimeMicroSec →
      ¬ (0 ≤ p._maxPoolSize ∧ p._maxPoolSize ≤ (p._pool.length : Int)) →
      p.done c now = ({ p with _pool := ⟨c, now⟩ :: p._pool }, [])) := by
  rw [done_eq]
  refine ⟨fun hf => ?_, fun hf hcr => ?_, fun hf hcr h1 h2 => ?_, fun hf hcr hcap => ?_⟩
  · simp [hf, reportBad_no_onDestroy]
  · simp [hf, hcr]
  · simp [hf, hcr, h1, h2]
  · simp [hf, hcr, hcap]

/-- Witness for C4 at concrete inputs, one per disposition branch. -/
theorem C4_done_disposition_witness :
    (PoolForHost.done { _pool := [⟨⟨9, false, 7, 0, true, 0⟩, 0⟩] }
        ⟨1, true, 5, 0, true, 0⟩ 0).2 =
      (PoolForHost.reportBadConnectionAt
          { _pool := [⟨⟨9, false, 7, 0, true, 0⟩, 0⟩] } 5).2 ++
        [PoolEvent.onDestroy ⟨1, true, 5, 0, true, 0⟩,
          PoolEvent.deleteConn ⟨1, true, 5, 0, true, 0⟩] ∧
    PoolForHost.done { _minValidCreationTimeMicroSec := 10 }
        ⟨2, false, 3, 0, true, 0⟩ 0 =
      ({ _minValidCreationTimeMicroSec := 10 },
        [PoolEvent.onDestroy ⟨2, false, 3, 0, true, 0⟩,
          PoolEvent.deleteConn ⟨2, false, 3, 0, true, 0⟩]) ∧
    PoolForHost.done { _maxPoolSize := 0 } ⟨3, false, 5, 0, true, 0⟩ 0 =
      ({ _maxPoolSize := 0 },
        [PoolEvent.onDestroy ⟨3, false, 5, 0, true, 0⟩,
          PoolEvent.deleteConn ⟨3, false, 5, 0, true, 0⟩]) ∧
    PoolForHost.done {} ⟨4, false, 5, 0, true, 0⟩ 7 =
      ({ _pool := [⟨⟨4, false, 5, 0, true, 0⟩, 7⟩] }, []) :=
  ⟨((C4_done_disposition { _pool := [⟨⟨9, false, 7, 0, true, 0⟩, 0⟩] }
      ⟨1, true, 5, 0, true, 0⟩ 0).1 rfl).2.1,
    (C4_done_disposition { _minValidCreationTimeMicroSec := 10 }
      ⟨2, false, 3, 0, true, 0⟩ 0).2.1 rfl (by decide),
    (C4_done_disposition { _maxPoolSize := 0 } ⟨3, false, 5, 0, true, 0⟩ 0).2.2.1
      rfl (by decide) (by decide) (by decide),
    (C4_done_disposition {} ⟨4, false, 5, 0, true, 0⟩ 7).2.2.2
      rfl (by decide) (by decide)⟩

/-- The (amended) idle-list invariant: every idle connection was created at
or after the watermark and does not report failed. -/
def PoolForHost.IdleInv (p : PoolForHost) : Prop :=
  ∀ sc ∈ p._pool,
    p._minValidCreationTimeMicroSec ≤ sc.conn.sockCreationMicroSec ∧
      sc.conn.isFailed = false

theorem getLoop_mem (now t : Nat) : ∀ stack : List StoredConnection,
    ∀ sc ∈ (PoolForHost.getLoop stack now t).1, sc ∈ stack := by
  intro stack
  induction stack with
  | nil => simp [PoolForHost.getLoop]
  | cons e rest ih =>
    intro sc hsc
    unfold PoolForHost.getLoop at hsc
    by_cases he : e.ok now
    · by_cases ht : e.conn.soTimeout = t <;>
        · simp [he, ht] at hsc
          exact List.mem_cons_of_mem _ hsc
    · simp [he] at hsc
      exact List.mem_cons_of_mem _ (ih sc hsc)

theorem IdleInv_clear (p : PoolForHost) : (p.clear).1.IdleInv := by
  intro sc hsc
  simp [PoolForHost.clear] at hsc

theorem IdleInv_reportBad (p : PoolForHost) (t : Nat) (h : p.IdleInv) :
    (p.reportBadConnectionAt t).1.IdleInv := by
  unfold PoolForHost.reportBadConnectionAt
  split
  · intro sc hsc
    simp [PoolForHost.clear] at hsc
  · exact h

theorem IdleInv_done (p : PoolForHost) (c : DBClientBase) (now : Nat)
    (h : p.IdleInv) : (p.done c now).1.IdleInv := by
  rw [done_eq]
  by_cases hf : c.isFailed = true
  · simp only [hf, if_true]
    exact IdleInv_reportBad p _ h
  · simp only [hf, Bool.false_eq_true, if_false]
    by_cases hrest : c.sockCreationMicroSec < p._minValidCreationTimeMicroSec ∨
        (0 ≤ p._maxPoolSize ∧ p._maxPoolSize ≤ (p._pool.length : Int))
    · simp only [hrest, if_true]
      exact h
    · simp only [hrest, if_false]
      intro sc hsc
      rcases List.mem_cons.1 hsc with hhd | htl
      · subst hhd
        have hcr : ¬ c.sockCreationMicroSec < p._minValidCreationTimeMicroSec :=
          fun hcontra => hrest (Or.inl hcontra)
        exact ⟨not_lt.1 hcr, Bool.not_eq_true _ ▸ hf⟩
      · exact h sc htl

theorem IdleInv_get (p : PoolForHost) (now t : Nat) (h : p.IdleInv) :
    (p.get now t).1.IdleInv := by
  intro sc hsc
  have hmem : sc ∈ p._pool := getLoop_mem now t p._pool sc hsc
  exact h sc hmem

theorem IdleInv_flush (p : PoolForHost) (probe : DBClientBase → Bool)
    (h : p.IdleInv) : (p.flush probe).1.IdleInv := by
  intro sc hsc
  simp only [PoolForHost.flush, List.mem_reverse, List.mem_filter] at hsc
  exact h sc hsc.1

theorem IdleInv_getStale (p : PoolForHost) (now : Nat) (h : p.IdleInv) :
    (p.getStaleConnections now).1.IdleInv := by
  intro sc hsc
  simp only [PoolForHost.getStaleConnections, List.mem_reverse,
    List.mem_filter] at hsc
  exact h sc hsc.1

/-- Counterexample to C1 as stated: raise the watermark to 5 on a fresh
partition, then return a healthy connection created exactly at 5.  `done`
keeps it idle (the code destroys only on *strictly* smaller creation
times), so an idle connection with `creationTimestamp() <= 
minValidCreationTime` exists at an observation point. -/
theorem C1_idle_invariant_counterexample :
    ((PoolForHost.reportBadConnectionAt {} 5).1.done ⟨1, false, 5, 0, true, 0⟩ 0).1._pool =
      [⟨⟨1, false, 5, 0, true, 0⟩, 0⟩] ∧
    ((PoolForHost.reportBadConnectionAt {} 5).1.done
        ⟨1, false, 5, 0, true, 0⟩ 0).1._minValidCreationTimeMicroSec = 5 := by
  constructor <;> rfl

/-- C1 amended: between operations, every idle connection of a partition has
creation timestamp **greater than or equal to** the watermark (the source
destroys only strictly older ones, so equality can survive) and reports not
failed; every `PoolForHost` operation preserves this invariant. -/
theorem C1_amended_idle_invariant (p : PoolForHost) (c : DBClientBase)
    (now t msec : Nat) (probe : DBClientBase → Bool) (h : p.IdleInv) :
    (p.done c now).1.IdleInv ∧ (p.get now t).1.IdleInv ∧
    (p.flush probe).1.IdleInv ∧ (p.getStaleConnections now).1.IdleInv ∧
    (p.reportBadConnectionAt msec).1.IdleInv ∧ (p.clear).1.IdleInv :=
  ⟨IdleInv_done p c now h, IdleInv_get p now t h, IdleInv_flush p probe h,
    IdleInv_getStale p now h, IdleInv_reportBad p msec h, IdleInv_clear p⟩

/-- Witness for C1 at a concrete input: the invariant holds of a one-entry
partition and is preserved by `done`. -/
theorem C1_amended_idle_invariant_witness :
    (PoolForHost.done { _pool := [⟨⟨9, false, 7, 0, true, 0⟩, 2⟩] }
        ⟨1, false, 5, 0, true, 0⟩ 3).1.IdleInv :=
  (C1_amended_idle_invariant { _pool := [⟨⟨9, false, 7, 0, true, 0⟩, 2⟩] }
      ⟨1, false, 5, 0, true, 0⟩ 3 0 0 (fun _ => true)
      (by intro sc hsc; simp at hsc; subst hsc; exact ⟨by decide, rfl⟩)).1

/-- Counterexample to C10 as stated: a call with a *failed* connection and a
key with no partition returns before touching the map, so no entry is
created. -/
theorem C10_usability_side_effect_counterexample :
    (DBConnectionPool.isConnectionGood {} "h:27017"
        (some ⟨1, true, 5, 7, true, 0⟩)).2._pools = ([] : PoolMap) ∧
    (DBConnectionPool.isConnectionGood {} "h:27017"
        (some ⟨1, true, 5, 7, true, 0⟩)).1 = false := ⟨rfl, rfl⟩

theorem isConnectionGood_snd (st : DBConnectionPool) (host : String)
    (c : DBClientBase) (hf : c.isFailed = false) :
    (st.isConnectionGood host (some c)).2._pools =
      (PoolMap.index st._pools ⟨host, c.soTimeout⟩).2 := by
  unfold DBConnectionPool.isConnectionGood
  simp only [hf, Bool.false_eq_true, if_false]
  split <;> rfl

/-- C10 amended: the usability check mutates pool state only on the path
that reaches the map — a present, non-failed connection whose (hostName,
socket-timeout) key has no partition yet causes a fresh default entry to be
appended (all existing partitions untouched); with an existing partition,
or an absent or failed connection, the map is unchanged. -/
theorem C10_amended_usability_side_effect (st : DBConnectionPool)
    (host : String) (c : DBClientBase) :
    (c.isFailed = false →
      PoolMap.find st._pools ⟨host, c.soTimeout⟩ = none →
      (st.isConnectionGood host (some c)).2._pools =
        st._pools ++ [(⟨host, c.soTimeout⟩, ({} : PoolForHost))]) ∧
    (c.isFailed = false →
      PoolMap.find st._pools ⟨host, c.soTimeout⟩ ≠ none →
      (st.isConnectionGood host (some c)).2._pools = st._pools) ∧
    (c.isFailed = true → (st.isConnectionGood host (some c)).2 = st) ∧
    (st.isConnectionGood host none).2 = st := by
  refine ⟨fun hf hnone => ?_, fun hf hsome => ?_, fun hf => ?_, rfl⟩
  · rw [isConnectionGood_snd st host c hf]
    unfold PoolMap.index
    rw [hnone]
  · rw [isConnectionGood_snd st host c hf]
    unfold PoolMap.index
    cases h : PoolMap.find st._pools ⟨host, c.soTimeout⟩ with
    | some p => rfl
    | none => exact absurd h hsome
  · unfold DBConnectionPool.isConnectionGood
    simp [hf]

/-- Witness for C10 at concrete inputs: a healthy connection's check creates
the missing partition entry; a failed connection's check leaves the state
alone. -/
theorem C10_amended_usability_side_effect_witness :
    (DBConnectionPool.isConnectionGood {} "h:27017"
        (some ⟨1, false, 5, 7, true, 0⟩)).2._pools =
      [(⟨"h:27017", 7⟩, ({} : PoolForHost))] ∧
    (DBConnectionPool.isConnectionGood {} "h:27017"
        (some ⟨1, true, 5, 7, true, 0⟩)).2 = ({} : DBConnectionPool) :=
  ⟨(C10_amended_usability_side_effect {} "h:27017" ⟨1, false, 5, 7, true, 0⟩).1
      rfl rfl,
    (C10_amended_usability_side_effect {} "h:27017" ⟨1, true, 5, 7, true, 0⟩).2.2.1
      rfl⟩

theorem removeHostLoop_fst (host : String) : ∀ m : PoolMap,
    (removeHostLoop m host).1 = m.map fun e =>
      if upToSlash e.1.ident.toList = upToSlash host.toList then
        (e.1, { e.2 with _pool := [] }) else e := by
  intro m
  induction m with
  | nil => rfl
  | cons e rest ih =>
    obtain ⟨k, p⟩ := e
    unfold removeHostLoop
    by_cases hcond : (!serverNameCompare host k.ident &&
        !serverNameCompare k.ident host) = true
    · have hup : upToSlash k.ident.toList = upToSlash host.toList := by
        rw [Bool.and_eq_true, Bool.not_eq_true', Bool.not_eq_true'] at hcond
        exact ((serverNameCompare_iff host k.ident).1 ⟨hcond.1, hcond.2⟩).symm
      have hup' : upToSlash k.ident.data = upToSlash host.data := hup
      simp [hcond, hup', PoolForHost.clear, ih]
    · have hup : ¬ upToSlash k.ident.toList = upToSlash host.toList := by
        intro hcontra
        apply hcond
        rw [Bool.and_eq_true, Bool.not_eq_true', Bool.not_eq_true']
        exact (serverNameCompare_iff host k.ident).2 hcontra.symm
      have hup' : ¬ upToSlash k.ident.data = upToSlash host.data := hup
      simp only [Bool.not_eq_true] at hcond
      simp [hcond, hup', ih]

/-- C8: `removeHost(h)` clears exactly the partitions whose key identity
matches `h` up to (and not including) the first `'/'`, leaving every other
partition untouched; in particular `removeHost("h:27017")` clears
partitions keyed `"h:27017"` and `"h:27017/rsName"` but not
`"other:27017"`. -/
theorem C8_removeHost_host_equivalence (st : DBConnectionPool) (host : String) :
    ((st.removeHost host).1._pools = st._pools.map fun e =>
      if upToSlash e.1.ident.toList = upToSlash host.toList then
        (e.1, { e.2 with _pool := [] }) else e) ∧
    (DBConnectionPool.removeHost
        ⟨[(⟨"h:27017", 0⟩, { _pool := [⟨⟨1, false, 5, 0, true, 0⟩, 0⟩] }),
          (⟨"h:27017/rsName", 1⟩, { _pool := [⟨⟨2, false, 6, 1, true, 0⟩, 0⟩] }),
          (⟨"other:27017", 0⟩, { _pool := [⟨⟨3, false, 7, 0, true, 0⟩, 0⟩] })], -1⟩
        "h:27017").1._pools =
      [(⟨"h:27017", 0⟩, ({} : PoolForHost)),
        (⟨"h:27017/rsName", 1⟩, ({} : PoolForHost)),
        (⟨"other:27017", 0⟩, { _pool := [⟨⟨3, false, 7, 0, true, 0⟩, 0⟩] })] := by
  constructor
  · unfold DBConnectionPool.removeHost
    exact removeHostLoop_fst host st._pools
  · decide

theorem reportBad_watermark_mono (p : PoolForHost) (t : Nat) :
    p._minValidCreationTimeMicroSec ≤
      (p.reportBadConnectionAt t).1._minValidCreationTimeMicroSec := by
  rw [reportBad_watermark]
  split
  · next h => exact le_of_lt h.2
  · exact le_refl _

/-- C5: per-partition watermark monotonicity — `done` and
`reportBadConnectionAt` can only raise `minValidCreationTime`; `get`,
`flush`, `getStaleConnections` and `clear` leave it untouched; and the
pool-wide `clear` (clearAll) and `removeHost` keep every map entry (keys in
place, never erased) with its watermark intact, so the watermark survives
an emptied idle list. -/
theorem C5_watermark_monotonic (p : PoolForHost) (c : DBClientBase)
    (now t msec : Nat) (probe : DBClientBase → Bool) (st : DBConnectionPool)
    (host : String) :
    p._minValidCreationTimeMicroSec ≤
      (p.done c now).1._minValidCreationTimeMicroSec ∧
    (p.get now t).1._minValidCreationTimeMicroSec =
      p._minValidCreationTimeMicroSec ∧
    (p.flush probe).1._minValidCreationTimeMicroSec =
      p._minValidCreationTimeMicroSec ∧
    (p.getStaleConnections now).1._minValidCreationTimeMicroSec =
      p._minValidCreationTimeMicroSec ∧
    p._minValidCreationTimeMicroSec ≤
      (p.reportBadConnectionAt msec).1._minValidCreationTimeMicroSec ∧
    (p.clear).1._minValidCreationTimeMicroSec =
      p._minValidCreationTimeMicroSec ∧
    ((st.clear).1._pools.map fun e =>
        (e.1, e.2._minValidCreationTimeMicroSec)) =
      (st._pools.map fun e => (e.1, e.2._minValidCreationTimeMicroSec)) ∧
    ((st.removeHost host).1._pools.map fun e =>
        (e.1, e.2._minValidCreationTimeMicroSec)) =
      (st._pools.map fun e => (e.1, e.2._minValidCreationTimeMicroSec)) := by
  refine ⟨?_, rfl, rfl, rfl, reportBad_watermark_mono p msec, rfl, ?_, ?_⟩
  · rw [done_eq]
    by_cases hf : c.isFailed = true
    · simp only [hf, if_true]
      exact reportBad_watermark_mono p _
    · simp only [hf, Bool.false_eq_true, if_false]
      split
      · exact le_refl _
      · exact le_refl _
  · unfold DBConnectionPool.clear
    rw [List.map_map]
    apply List.map_congr_left
    intro e he
    rfl
  · show (List.map (fun e => (e.1, e.2._minValidCreationTimeMicroSec))
        (removeHostLoop st._pools host).1) =
      List.map (fun e => (e.1, e.2._minValidCreationTimeMicroSec)) st._pools
    rw [removeHostLoop_fst, List.map_map]
    apply List.map_congr_left
    intro e he
    by_cases hcond : upToSlash e.1.ident.data = upToSlash host.data <;>
      simp [hcond]

theorem finishCreate_throw (st1 : DBConnectionPool) (hooks : HookSpec)
    (host : String) (t : Nat) (c : DBClientBase)
    (hthrow : hooks.onCreateThrows c = true ∨ hooks.onHandedOutThrows c = true) :
    (st1._finishCreate hooks host t c).2.2 = Except.error () ∧
    (st1._finishCreate hooks host t c).2.1.getLast? =
      some (PoolEvent.deleteConn c) := by
  unfold DBConnectionPool._finishCreate
  by_cases h1 : hooks.onCreateThrows c = true
  · simp [h1]
  · simp only [Bool.not_eq_true] at h1
    rcases hthrow with h | h2
    · rw [h1] at h
      cases h
    · simp [h1, h2]

/-- C7: in an acquire that dials a new connection, a throwing create or
handed-out hook destroys the freshly dialed connection (the `delete` is the
last recorded action before the exception leaves `_finishCreate`) and the
acquire fails with the hook error instead of returning a connection. -/
theorem C7_hook_failure_no_leak (st : DBConnectionPool) (hooks : HookSpec)
    (host : String) (t now : Nat) (c : DBClientBase)
    (hmiss : (st._get host t now).2.2 = GetResult.empty)
    (hthrow : hooks.onCreateThrows c = true ∨ hooks.onHandedOutThrows c = true) :
    ((st._get host t now).1._finishCreate hooks host t c).2.2 =
      Except.error () ∧
    ((st._get host t now).1._finishCreate hooks host t c).2.1.getLast? =
      some (PoolEvent.deleteConn c) ∧
    (st.get hooks host t now (some c)).2.2 = AcquireResult.hookError ∧
    (st.get hooks host t now (some c)).2.1.getLast? =
      some (PoolEvent.deleteConn c) := by
  have hfc := finishCreate_throw (st._get host t now).1 hooks host t c hthrow
  refine ⟨hfc.1, hfc.2, ?_, ?_⟩
  · unfold DBConnectionPool.get
    rcases hG : st._get host t now with ⟨stx, evx, rx⟩
    rw [hG] at hmiss hfc
    dsimp only at hmiss hfc ⊢
    subst hmiss
    rw [hfc.1]
  · unfold DBConnectionPool.get
    rcases hG : st._get host t now with ⟨stx, evx, rx⟩
    rw [hG] at hmiss hfc
    dsimp only at hmiss hfc ⊢
    subst hmiss
    have hne : (stx._finishCreate hooks host t c).2.1 ≠ [] := by
      intro hnil
      rw [hnil] at hfc
      cases hfc.2
    rw [List.getLast?_append_of_ne_nil _ hne, hfc.2]

/-- Witness for C7 at a concrete input: an empty pool, a hook set whose
create hook throws. -/
theorem C7_hook_failure_no_leak_witness :
    (DBConnectionPool.get {} ⟨fun _ => true, fun _ => false⟩ "h" 0 0
        (some ⟨1, false, 5, 0, true, 0⟩)).2.2 = AcquireResult.hookError :=
  (C7_hook_failure_no_leak {} ⟨fun _ => true, fun _ => false⟩ "h" 0 0
      ⟨1, false, 5, 0, true, 0⟩ rfl (Or.inl rfl)).2.2.1

theorem initializeHostName_self (p : PoolForHost) (host : String)
    (h : p._hostName = host) : p.initializeHostName host = p := by
  unfold PoolForHost.initializeHostName
  by_cases h0 : p._hostName = ""
  · rw [if_pos h0, ← h]
  · rw [if_neg h0]

/-- One acquire immediately followed (on success) by one release, as in the
idempotent-reuse testable property. -/
def acquireReleaseCycle (hooks : HookSpec) (host : String) (t now : Nat)
    (dial : Option DBClientBase) (st : DBConnectionPool) : DBConnectionPool :=
  let g := st.get hooks host t now dial
  match g.2.2 with
  | AcquireResult.ok c => (g.1.release host c now).1
  | _ => g.1

/-- `N` acquire/release cycles starting from the empty pool. -/
def repeatCycle (hooks : HookSpec) (host : String) (t now : Nat)
    (dial : Option DBClientBase) : Nat → DBConnectionPool
  | 0 => {}
  | n + 1 =>
    acquireReleaseCycle hooks host t now dial
      (repeatCycle hooks host t now dial n)

theorem cycle_first (host : String) (c : DBClientBase) (now : Nat)
    (hf : c.isFailed = false) (hs : c.stillConnected = true) :
    acquireReleaseCycle noThrowHooks host c.soTimeout now (some c) {} =
      ⟨[(⟨host, c.soTimeout⟩, ⟨[⟨c, now⟩], 1, 0, -1, host, c.connType⟩)], -1⟩ := by
  simp [acquireReleaseCycle, DBConnectionPool.get, DBConnectionPool._get,
    DBConnectionPool._finishCreate, DBConnectionPool.release, PoolMap.index,
    PoolMap.find, PoolMap.store, poolKeyEquiv_refl, PoolForHost.get,
    PoolForHost.getLoop, PoolForHost.setMaxPoolSize,
    PoolForHost.initializeHostName, PoolForHost.createdOne, PoolForHost.done,
    PoolForHost.reportBadConnectionAt, noThrowHooks, StoredConnection.ok,
    hf, hs, Nat.not_lt_zero, show ¬ (0 : Int) ≤ -1 by decide]

theorem cycle_fix (host : String) (c : DBClientBase) (now : Nat)
    (hf : c.isFailed = false) (hs : c.stillConnected = true) :
    acquireReleaseCycle noThrowHooks host c.soTimeout now (some c)
        ⟨[(⟨host, c.soTimeout⟩, ⟨[⟨c, now⟩], 1, 0, -1, host, c.connType⟩)], -1⟩ =
      ⟨[(⟨host, c.soTimeout⟩, ⟨[⟨c, now⟩], 1, 0, -1, host, c.connType⟩)], -1⟩ := by
  have hinit : PoolForHost.initializeHostName
      ⟨[⟨c, now⟩], 1, 0, -1, host, c.connType⟩ host =
      ⟨[⟨c, now⟩], 1, 0, -1, host, c.connType⟩ :=
    initializeHostName_self _ host rfl
  simp [acquireReleaseCycle, DBConnectionPool.get, DBConnectionPool._get,
    DBConnectionPool.release, PoolMap.index, PoolMap.find, PoolMap.store,
    poolKeyEquiv_refl, PoolForHost.get, PoolForHost.getLoop,
    PoolForHost.setMaxPoolSize, hinit, PoolForHost.done,
    PoolForHost.reportBadConnectionAt, noThrowHooks, StoredConnection.ok,
    hf, hs, Nat.not_lt_zero, show ¬ (0 : Int) ≤ -1 by decide]

/-- C6: starting from an empty pool with unbounded capacity, `N ≥ 1` rounds
of acquire immediately followed by release (healthy, still-connected
connection, matching timeout, non-throwing hooks) leave the partition with
created-count exactly 1 and available-count exactly 1: only the first
acquire dials, every later acquire reuses the pooled connection. -/
theorem C6_idempotent_reuse (N : Nat) (host : String) (c : DBClientBase)
    (now : Nat) (hN : 1 ≤ N) (hf : c.isFailed = false)
    (hs : c.stillConnected = true) :
    PoolMap.createdAt
        (repeatCycle noThrowHooks host c.soTimeout now (some c) N)._pools
        ⟨host, c.soTimeout⟩ = 1 ∧
    PoolMap.availableAt
        (repeatCycle noThrowHooks host c.soTimeout now (some c) N)._pools
        ⟨host, c.soTimeout⟩ = 1 := by
  have hfix : ∀ n : Nat, 1 ≤ n →
      repeatCycle noThrowHooks host c.soTimeout now (some c) n =
        ⟨[(⟨host, c.soTimeout⟩, ⟨[⟨c, now⟩], 1, 0, -1, host, c.connType⟩)], -1⟩ := by
    intro n
    induction n with
    | zero => intro hn; exact absurd hn (by decide)
    | succ m ih =>
      intro hn
      rcases Nat.eq_zero_or_pos m with hm | hm
      · subst hm
        show acquireReleaseCycle noThrowHooks host c.soTimeout now (some c)
            (repeatCycle noThrowHooks host c.soTimeout now (some c) 0) = _
        exact cycle_first host c now hf hs
      · show acquireReleaseCycle noThrowHooks host c.soTimeout now (some c)
            (repeatCycle noThrowHooks host c.soTimeout now (some c) m) = _
        rw [ih hm]
        exact cycle_fix host c now hf hs
  rw [hfix N hN]
  constructor <;>
    simp [PoolMap.createdAt, PoolMap.availableAt, PoolMap.find, poolKeyEquiv_refl]

/-- Witness for C6 at a concrete input: three rounds with a concrete healthy
connection. -/
theorem C6_idempotent_reuse_witness :
    PoolMap.createdAt
        (repeatCycle noThrowHooks "h" 7 9 (some ⟨1, false, 5, 7, true, 2⟩) 3)._pools
        ⟨"h", 7⟩ = 1 ∧
    PoolMap.availableAt
        (repeatCycle noThrowHooks "h" 7 9 (some ⟨1, false, 5, 7, true, 2⟩) 3)._pools
        ⟨"h", 7⟩ = 1 :=
  C6_idempotent_reuse 3 "h" ⟨1, false, 5, 7, true, 2⟩ 9 (by decide) rfl rfl
